import Mathlib

/-!
# Verification of the rs3cache cache-access layer

Shallow embedding of the cache access layer of the `rs3cache` repository:
the jcache (sqlite) back-end (`src/rs3cache_backend/src/index/sqlite.rs`)
and the legacy dat/idx back-end (`src/rs3cache_backend/src/index/dat.rs`),
together with theorems settling the specification claims about them.

Bytes are modelled as natural numbers (the sources read `u8` values);
machine integers are modelled as `Nat`/`Int` with explicit wrapping where
the source can wrap.  Fallible operations return an `Outcome`, whose
`panic` constructor models a Rust panic (`unwrap`, `assert_eq!`,
`unimplemented!`) and whose `diverge` constructor models fuel exhaustion
of a source loop that Lean cannot show terminating.
-/

namespace RS3

/-- A path that an operation attempted to open, as carried by
`CacheError::CacheNotFoundError`.  `dat` is `{root}/cache/main_file_cache.dat`,
`idx a` is `{root}/cache/main_file_cache.idx{a}`, `jcache a` is
`{root}/js5-{a}.jcache`. -/
inductive PathRef where
  | dat : PathRef
  | idx (a : Nat) : PathRef
  | jcache (a : Nat) : PathRef
deriving DecidableEq, Repr

/-- The error taxonomy of `CacheError` (src/rs3cache_backend/src/error.rs is
not included in the sources; variants follow the constructors invoked from
`dat.rs`/`sqlite.rs` and spec section 7). -/
inductive CacheError where
  | cacheNotFound (p : PathRef) : CacheError
  | archiveMissing (indexId archiveId : Nat) : CacheError
  | crcMismatch (indexId archiveId : Nat) (expected actual : Int) : CacheError
  | versionMismatch (indexId archiveId : Nat) (expected actual : Int) : CacheError
  | decompression : CacheError
  | endOfInput : CacheError
deriving DecidableEq, Repr

/-- Result of running an embedded operation: a Rust `Ok`, a returned
`CacheError`, a panic (`unwrap` / `assert_eq!` / `unimplemented!`), or
fuel exhaustion of a loop. -/
inductive Outcome (α : Type) where
  | ok (val : α)
  | error (e : CacheError)
  | panic
  | diverge
deriving DecidableEq, Repr

/-- Big-endian value of a list of bytes (`u8::from_be_bytes`,
`u16::from_be_bytes`, `Buf::get_uint(n)` and friends). -/
def beUint : List Nat → Nat
  | [] => 0
  | b :: r => b * 256 ^ r.length + beUint r

/-- `read_exact` / `try_get_uint` on an in-memory byte sequence: read `n`
bytes starting at `pos`, failing when that would run past the end. -/
def readExact (l : List Nat) (pos n : Nat) : Option (List Nat) :=
  if pos + n ≤ l.length then some ((l.drop pos).take n) else none

/-! ## The jcache (sqlite) back-end -/

/-- Modelled from the spec: `ArchiveMeta` (the `Metadata` struct of
`meta.rs`, not included in the sources).  Per spec section 3 it carries
`index_id`, `archive_id`, an optional `name_hash`, `crc` and `version`
(the child-file table plays no role in the claims). -/
structure Metadata where
  index_id : Nat
  archive_id : Nat
  name_hash : Option Nat
  crc : Nat
  version : Nat
deriving DecidableEq, Repr

/-- One row of the jcache `cache` table: `DATA`, `CRC`, `VERSION`
(spec section 4.5; sqlite integers are 64-bit signed, hence `Int`). -/
structure CacheRow where
  data : List Nat
  crc : Int
  version : Int
deriving DecidableEq, Repr

/-- A jcache-backed `CacheIndex`: its `index_id`, the decoded `metadatas`
mapping (as an ordered association list keyed by archive id) and the
database `cache` table (association list keyed by `KEY`). -/
structure SqliteIndex where
  index_id : Nat
  metadatas : List (Nat × Metadata)
  cacheTable : List (Nat × CacheRow)
deriving DecidableEq, Repr

/-- `SELECT ... FROM cache WHERE KEY=?`: the first row whose key matches. -/
def lookupRow (t : List (Nat × CacheRow)) (k : Nat) : Option CacheRow :=
  (t.find? (fun p => decide (p.1 = k))).map Prod.snd

/-- The `crc_offset` match in `sqlite.rs` (`get_file` lines 50-54 and
`assert_coherence` lines 96-100): 2 for indices 8 and 47, else 1. -/
def crcOffset (index_id : Nat) : Int :=
  match index_id with
  | 8 => 2
  | 47 => 2
  | _ => 1

/-- `CacheIndex::get_file` of `sqlite.rs` (lines 39-75).  `dec` is the
out-of-scope `decoder::decompress` (spec section 4.2), `none` meaning a
decompression failure. -/
def sqliteGetFile (dec : List Nat → Option (List Nat)) (c : SqliteIndex) (m : Metadata) :
    Outcome (List Nat) :=
  match lookupRow c.cacheTable m.archive_id with
  | none => .error (.archiveMissing c.index_id m.archive_id)
  | some row =>
    if row.crc = 0 ∧ row.version = 0 then
      .error (.archiveMissing m.index_id m.archive_id)
    else if (m.crc : Int) + crcOffset c.index_id ≠ row.crc then
      .error (.crcMismatch m.index_id m.archive_id
        ((m.crc : Int) + crcOffset c.index_id) row.crc)
    else if (m.version : Int) ≠ row.version then
      .error (.versionMismatch m.index_id m.archive_id (m.version : Int) row.version)
    else
      match dec row.data with
      | some d => .ok d
      | none => .error .decompression

/-- The body of the `assert_coherence` loop of `sqlite.rs` (lines 88-117)
for one `(archive_id, metadata)` pair.  The row lookup is `unwrap`ped
(line 91), so a missing row is a panic, not an error. -/
def coherenceStep (c : SqliteIndex) (archive_id : Nat) (m : Metadata) : Outcome Unit :=
  match lookupRow c.cacheTable archive_id with
  | none => .panic
  | some row =>
    if row.crc = 0 ∧ row.version = 0 then
      .error (.archiveMissing m.index_id m.archive_id)
    else if (m.crc : Int) + crcOffset c.index_id ≠ row.crc then
      .error (.crcMismatch m.index_id m.archive_id
        ((m.crc : Int) + crcOffset c.index_id) row.crc)
    else if (m.version : Int) ≠ row.version then
      .error (.versionMismatch m.index_id m.archive_id (m.version : Int) row.version)
    else .ok ()

/-- The `assert_coherence` iteration over `self.metadatas()` with early
return on the first error. -/
def coherenceLoop (c : SqliteIndex) : List (Nat × Metadata) → Outcome Unit
  | [] => .ok ()
  | (id, m) :: rest =>
    match coherenceStep c id m with
    | .ok _ => coherenceLoop c rest
    | .error e => .error e
    | .panic => .panic
    | .diverge => .diverge

/-- `CacheIndex::assert_coherence` of `sqlite.rs` (lines 87-120). -/
def assertCoherence (c : SqliteIndex) : Outcome Unit :=
  coherenceLoop c c.metadatas

/-! ## The legacy dat/idx back-end -/

/-- The cache directory that a legacy `CachePath` points to: the bytes of
`cache/main_file_cache.dat` when the file exists, and the bytes of each
present `cache/main_file_cache.idx{a}` file. -/
structure LegacyFs where
  datFile : Option (List Nat)
  idxFiles : List (Nat × List Nat)
deriving DecidableEq, Repr

/-- `fs::read` of `main_file_cache.idx{a}`: the bytes of the idx file for
index `a` when present. -/
def lookupIdx (fs : LegacyFs) (a : Nat) : Option (List Nat) :=
  (fs.idxFiles.find? (fun p => decide (p.1 = a))).map Prod.snd

/-- A legacy `CacheIndex`: the shared cache directory handle, the
`index_id`, the decoded `metadatas` and the open `main_file_cache.dat`
bytes (fields of `CacheIndex` as constructed in `dat.rs` lines 168-174;
the unit `state` tag is dropped). -/
structure DatIndex where
  path : LegacyFs
  index_id : Nat
  metadatas : List (Nat × Metadata)
  file : List Nat
deriving DecidableEq, Repr

/-- `CacheIndex::get_entry` of `dat.rs` (lines 29-39): read the 6-byte
entry of archive `b` from `main_file_cache.idx{a}` as two big-endian
`uint24`s `(length, first_sector)`. -/
def getEntry (a b : Nat) (fs : LegacyFs) : Outcome (Nat × Nat) :=
  match lookupIdx fs a with
  | none => .error (.cacheNotFound (.idx a))
  | some d =>
    match readExact d (b * 6) 3, readExact d (b * 6 + 3) 3 with
    | some l, some s => .ok (beUint l, beUint s)
    | _, _ => .error .endOfInput

/-- One iteration of the `read_index` sector loop of `dat.rs`
(lines 50-89): seek to `sector * 520`, read the 8- or 10-byte header
(depending on `b` against `0xFFFF`), check the archive and part echoes
with `assert_eq!` (a mismatch panics), and read the body of
`min(510 or 512, length - readCount)` bytes.  Returns the body bytes and
the next sector. -/
def readSector (dat : List Nat) (b length readCount part sector : Nat) :
    Outcome (List Nat × Nat) :=
  let pos := sector * 520
  if b ≥ 0xFFFF then
    match readExact dat pos 4 with
    | none => .error .endOfInput
    | some echoB =>
      let blockSize := min 510 (length - readCount)
      match readExact dat (pos + 4) 2 with
      | none => .error .endOfInput
      | some partB =>
        match readExact dat (pos + 6) 3 with
        | none => .error .endOfInput
        | some nextB =>
          match readExact dat (pos + 9) 1 with
          | none => .error .endOfInput
          | some _ =>
            if b ≠ beUint echoB then .panic
            else if part ≠ beUint partB then .panic
            else
              match readExact dat (pos + 10) blockSize with
              | none => .error .endOfInput
              | some body => .ok (body, beUint nextB)
  else
    match readExact dat pos 2 with
    | none => .error .endOfInput
    | some echoB =>
      let blockSize := min 512 (length - readCount)
      match readExact dat (pos + 2) 2 with
      | none => .error .endOfInput
      | some partB =>
        match readExact dat (pos + 4) 3 with
        | none => .error .endOfInput
        | some nextB =>
          match readExact dat (pos + 7) 1 with
          | none => .error .endOfInput
          | some _ =>
            if b ≠ beUint echoB then .panic
            else if part ≠ beUint partB then .panic
            else
              match readExact dat (pos + 8) blockSize with
              | none => .error .endOfInput
              | some body => .ok (body, beUint nextB)

/-- The `while sector != 0` loop of `read_index` (`dat.rs` lines 50-89),
with explicit fuel for the unbounded chain walk.  Arguments after the
fuel: the running `read_count`, `part`, `sector` and accumulated data. -/
def readLoop (dat : List Nat) (b length : Nat) :
    Nat → Nat → Nat → Nat → List Nat → Outcome (List Nat)
  | _, _, _, 0, data => .ok data
  | 0, _, _, _, _ => .diverge
  | fuel + 1, readCount, part, sector, data =>
    match readSector dat b length readCount part sector with
    | .ok (body, next) =>
      readLoop dat b length fuel (readCount + body.length) (part + 1) next (data ++ body)
    | .error e => .error e
    | .panic => .panic
    | .diverge => .diverge

/-- `CacheIndex::read_index` of `dat.rs` (lines 41-91). -/
def readIndex (fuel : Nat) (c : DatIndex) (a b : Nat) : Outcome (List Nat) :=
  match getEntry a b c.path with
  | .ok (length, sector) => readLoop c.file b length fuel 0 0 sector []
  | .error e => .error e
  | .panic => .panic
  | .diverge => .diverge

/-- `CacheIndex::get_file` of `dat.rs` (lines 93-100): raw bytes for
index 0 (the caller unpacks the `.jag` container), decompressed bytes
otherwise. -/
def datGetFile (fuel : Nat) (dec : List Nat → Option (List Nat)) (c : DatIndex)
    (m : Metadata) : Outcome (List Nat) :=
  match readIndex fuel c m.index_id m.archive_id with
  | .ok data =>
    if m.index_id = 0 then .ok data
    else
      match dec data with
      | some d => .ok d
      | none => .error .decompression
  | .error e => .error e
  | .panic => .panic
  | .diverge => .diverge

/-- Modelled from the spec: `crate::hash::hash_archive` (`hash.rs` is not
included in the sources).  Spec section 6: `h = 0; for each byte b: h =
h * 31 + b` with wrapping 32-bit arithmetic, over the bytes of the name. -/
def hashArchive (name : List Nat) : Nat :=
  name.foldl (fun h b => (h * 31 + b) % 2 ^ 32) 0

/-- The scan of `archive_by_name` over `self.metadatas.iter()`
(`dat.rs` lines 104-109). -/
def archiveByNameLoop (fuel : Nat) (dec : List Nat → Option (List Nat)) (c : DatIndex)
    (h : Nat) : List (Nat × Metadata) → Outcome (List Nat)
  | [] => .error (.archiveMissing 0 0)
  | (_, m) :: rest =>
    if m.name_hash = some h then datGetFile fuel dec c m
    else archiveByNameLoop fuel dec c h rest

/-- `CacheIndex::archive_by_name` of `dat.rs` (lines 102-110). -/
def archiveByName (fuel : Nat) (dec : List Nat → Option (List Nat)) (c : DatIndex)
    (name : List Nat) : Outcome (List Nat) :=
  archiveByNameLoop fuel dec c (hashArchive name) c.metadatas

/-- `CacheIndex::<Initial>::new` of `dat.rs` (lines 160-175): open
`cache/main_file_cache.dat` (cache-not-found when absent) and build the
index with `IndexMetadata::empty()`. -/
def datNew (index_id : Nat) (fs : LegacyFs) : Outcome DatIndex :=
  match fs.datFile with
  | some d => .ok { path := fs, index_id := index_id, metadatas := [], file := d }
  | none => .error (.cacheNotFound .dat)

/-! ## The map-square index decoder -/

/-- The `MapsquareMeta` record of `dat.rs` (lines 178-184). -/
structure MapsquareMeta where
  mapsquare : Nat
  mapfile : Nat
  locfile : Nat
  f2p : Bool
deriving DecidableEq, Repr

/-- The strict order on `(u8, u8)` keys used by the
`BTreeMap<(u8, u8), MapsquareMeta>` of `get_index`. -/
def keyLt (k k' : Nat × Nat) : Bool :=
  k.1 < k'.1 || (k.1 = k'.1 && k.2 < k'.2)

/-- `BTreeMap::insert`, on the ordered association list representing the
map: an existing binding for the same key is overwritten. -/
def btInsert (k : Nat × Nat) (v : MapsquareMeta) :
    List ((Nat × Nat) × MapsquareMeta) → List ((Nat × Nat) × MapsquareMeta)
  | [] => [(k, v)]
  | (k', v') :: t =>
    if keyLt k k' then (k, v) :: (k', v') :: t
    else if k = k' then (k, v) :: t
    else (k', v') :: btInsert k v t

/-- `BTreeMap` lookup on the ordered association list. -/
def btFind (m : List ((Nat × Nat) × MapsquareMeta)) (k : Nat × Nat) :
    Option MapsquareMeta :=
  (m.find? (fun p => decide (p.1 = k))).map Prod.snd

/-- The record-decoding loop of `get_index` (`dat.rs` lines 137-148):
`k` remaining iterations, cursor at `pos`.  Each iteration reads
`u16 mapsquare, u16 mapfile, u16 locfile, u8 f2p` (a read past the end of
the buffer panics, as `Bytes::get_u16` does), converts `mapsquare >> 8`
to `u8` with `try_into().unwrap()` (panicking when it does not fit) and
inserts under the key `(mapsquare >> 8, mapsquare & 0xFF)`. -/
def decodeMapLoop (l : List Nat) :
    Nat → Nat → List ((Nat × Nat) × MapsquareMeta) →
    Outcome (List ((Nat × Nat) × MapsquareMeta))
  | 0, _, acc => .ok acc
  | k + 1, pos, acc =>
    match readExact l pos 2, readExact l (pos + 2) 2, readExact l (pos + 4) 2,
        readExact l (pos + 6) 1 with
    | some ms, some mf, some lf, some f =>
      let meta : MapsquareMeta :=
        { mapsquare := beUint ms, mapfile := beUint mf, locfile := beUint lf,
          f2p := beUint f ≠ 0 }
      if beUint ms / 256 ≥ 256 then .panic
      else decodeMapLoop l k (pos + 7) (btInsert (beUint ms / 256, beUint ms % 256) meta acc)
    | _, _, _, _ => .panic

/-- The decoding of the `map_index` sub-file inside `get_index`
(`dat.rs` lines 135-150): `len / 7` records from the start of the file
into an initially empty map. -/
def decodeMapIndex (l : List Nat) : Outcome (List ((Nat × Nat) × MapsquareMeta)) :=
  decodeMapLoop l (l.length / 7) 0 []

/-- Modelled from the spec: the `Archive` type (`arc.rs` is not included
in the sources).  Spec sections 3 and 4.7: an `Archive` exposes
`file_named(name)`, which looks a sub-file up by its name; `none` models
a failed lookup (which `get_index` `unwrap`s). -/
structure SpecArchive where
  fileNamed : String → Option (List Nat)

/-- `CacheIndex::get_index` of `dat.rs` (lines 112-151): only supported
for `index_id = 4` (anything else is `unimplemented!`); saves `index_id`,
sets it to 0, fetches archive 5 and its `map_index` / `map_version` /
`map_crc` sub-files (each `unwrap`ped), restores `index_id`, then decodes
the records.  `arch` is the out-of-scope `CacheIndex::archive` operation
(`index/mod.rs` is not included in the sources); spec section 4.6
describes it as a pure retrieval, so it is passed as a function of the
index state, `none` modelling a failed retrieval (which is `unwrap`ped).
Returns the final state of `self` together with the decoded map. -/
def getIndex (arch : DatIndex → Nat → Option SpecArchive) (c : DatIndex) :
    Outcome (DatIndex × List ((Nat × Nat) × MapsquareMeta)) :=
  match c.index_id with
  | 4 =>
    match arch { c with index_id := 0 } 5 with
    | none => .panic
    | some a =>
      match a.fileNamed "map_index" with
      | none => .panic
      | some index =>
        match a.fileNamed "map_version" with
        | none => .panic
        | some _ =>
          match a.fileNamed "map_crc" with
          | none => .panic
          | some _ =>
            match decodeMapIndex index with
            | .ok m => .ok ({ { c with index_id := 0 } with index_id := c.index_id }, m)
            | .error e => .error e
            | .panic => .panic
            | .diverge => .diverge
  | _ => .panic

/-! ## Lemmas about the jcache coherence loop -/

theorem sqliteGetFile_none (dec : List Nat → Option (List Nat)) (c : SqliteIndex)
    (m : Metadata) (hrow : lookupRow c.cacheTable m.archive_id = none) :
    sqliteGetFile dec c m = .error (.archiveMissing c.index_id m.archive_id) := by
  unfold sqliteGetFile
  rw [hrow]

theorem sqliteGetFile_some (dec : List Nat → Option (List Nat)) (c : SqliteIndex)
    (m : Metadata) (row : CacheRow)
    (hrow : lookupRow c.cacheTable m.archive_id = some row) :
    sqliteGetFile dec c m =
      if row.crc = 0 ∧ row.version = 0 then
        .error (.archiveMissing m.index_id m.archive_id)
      else if (m.crc : Int) + crcOffset c.index_id ≠ row.crc then
        .error (.crcMismatch m.index_id m.archive_id
          ((m.crc : Int) + crcOffset c.index_id) row.crc)
      else if (m.version : Int) ≠ row.version then
        .error (.versionMismatch m.index_id m.archive_id (m.version : Int) row.version)
      else
        match dec row.data with
        | some d => .ok d
        | none => .error .decompression := by
  unfold sqliteGetFile
  rw [hrow]

theorem coherenceStep_none (c : SqliteIndex) (id : Nat) (m : Metadata)
    (hrow : lookupRow c.cacheTable id = none) : coherenceStep c id m = .panic := by
  unfold coherenceStep
  rw [hrow]

theorem coherenceStep_some (c : SqliteIndex) (id : Nat) (m : Metadata) (row : CacheRow)
    (hrow : lookupRow c.cacheTable id = some row) :
    coherenceStep c id m =
      if row.crc = 0 ∧ row.version = 0 then
        .error (.archiveMissing m.index_id m.archive_id)
      else if (m.crc : Int) + crcOffset c.index_id ≠ row.crc then
        .error (.crcMismatch m.index_id m.archive_id
          ((m.crc : Int) + crcOffset c.index_id) row.crc)
      else if (m.version : Int) ≠ row.version then
        .error (.versionMismatch m.index_id m.archive_id (m.version : Int) row.version)
      else .ok () := by
  unfold coherenceStep
  rw [hrow]

theorem coherenceLoop_cons (c : SqliteIndex) (id : Nat) (m : Metadata)
    (rest : List (Nat × Metadata)) :
    coherenceLoop c ((id, m) :: rest) =
      match coherenceStep c id m with
      | .ok _ => coherenceLoop c rest
      | .error e => .error e
      | .panic => .panic
      | .diverge => .diverge := rfl

theorem coherenceStep_ok (c : SqliteIndex) (id : Nat) (m : Metadata)
    (h : coherenceStep c id m = .ok ()) :
    ∃ row, lookupRow c.cacheTable id = some row ∧
      (m.crc : Int) + crcOffset c.index_id = row.crc ∧
      (m.version : Int) = row.version := by
  rcases hrow : lookupRow c.cacheTable id with _ | row
  · rw [coherenceStep_none c id m hrow] at h
    cases h
  · rw [coherenceStep_some c id m row hrow] at h
    refine ⟨row, rfl, ?_⟩
    by_cases h0 : row.crc = 0 ∧ row.version = 0
    · rw [if_pos h0] at h; cases h
    · rw [if_neg h0] at h
      by_cases hcrc : (m.crc : Int) + crcOffset c.index_id ≠ row.crc
      · rw [if_pos hcrc] at h; cases h
      · rw [if_neg hcrc] at h
        by_cases hv : (m.version : Int) ≠ row.version
        · rw [if_pos hv] at h; cases h
        · exact ⟨not_not.mp hcrc, not_not.mp hv⟩

theorem coherenceLoop_ok (c : SqliteIndex) (l : List (Nat × Metadata))
    (h : coherenceLoop c l = .ok ()) :
    ∀ p ∈ l, coherenceStep c p.1 p.2 = .ok () := by
  induction l with
  | nil => intro p hp; cases hp
  | cons q rest ih =>
    intro p hp
    obtain ⟨id, m⟩ := q
    rw [coherenceLoop_cons] at h
    rcases hstep : coherenceStep c id m with u | e | _ | _ <;> rw [hstep] at h
    · cases u
      rw [List.mem_cons] at hp
      rcases hp with hp | hp
      · rw [hp]; exact hstep
      · exact ih h p hp
    · cases h
    · cases h
    · cases h

theorem coherenceLoop_skip (c : SqliteIndex) (rest : List (Nat × Metadata)) :
    ∀ pre, (∀ p ∈ pre, coherenceStep c p.1 p.2 = .ok ()) →
      coherenceLoop c (pre ++ rest) = coherenceLoop c rest := by
  intro pre
  induction pre with
  | nil => intro _; rfl
  | cons q t ih =>
    intro hok
    obtain ⟨id, m⟩ := q
    have hq : coherenceStep c id m = .ok () := hok (id, m) (List.mem_cons_self _ _)
    rw [List.cons_append, coherenceLoop_cons, hq]
    exact ih fun p hp => hok p (List.mem_cons_of_mem _ hp)

theorem coherenceStep_not_panic (c : SqliteIndex) (id : Nat) (m : Metadata)
    (h : (lookupRow c.cacheTable id).isSome) : coherenceStep c id m ≠ .panic := by
  rcases hrow : lookupRow c.cacheTable id with _ | row
  · rw [hrow] at h; cases h
  · rw [coherenceStep_some c id m row hrow]
    by_cases h0 : row.crc = 0 ∧ row.version = 0
    · rw [if_pos h0]; simp
    · rw [if_neg h0]
      by_cases hcrc : (m.crc : Int) + crcOffset c.index_id ≠ row.crc
      · rw [if_pos hcrc]; simp
      · rw [if_neg hcrc]
        by_cases hv : (m.version : Int) ≠ row.version
        · rw [if_pos hv]; simp
        · rw [if_neg hv]; simp

/-! ## Claim C1 -/

/-- **C1** (amended): for a jcache index, `get_file` and the
`assert_coherence` body accept a stored row only when the stored CRC
equals the metadata CRC plus `crc_offset` (2 for indices 8 and 47, else
1); when they differ *and the row is not reserved-but-empty* (stored CRC
and VERSION both 0), the operation fails with a crc-mismatch carrying
expected (`metadata.crc + crc_offset`) and actual (stored) values.  A
reserved-but-empty row fails with archive-missing instead, even when the
CRCs differ. -/
theorem c1_crc_offset_check :
    (∀ (c : SqliteIndex) (dec : List Nat → Option (List Nat)) (m : Metadata) (row : CacheRow),
      lookupRow c.cacheTable m.archive_id = some row →
      ¬(row.crc = 0 ∧ row.version = 0) →
      (m.crc : Int) + crcOffset c.index_id ≠ row.crc →
      sqliteGetFile dec c m =
          .error (.crcMismatch m.index_id m.archive_id
            ((m.crc : Int) + crcOffset c.index_id) row.crc) ∧
        coherenceStep c m.archive_id m =
          .error (.crcMismatch m.index_id m.archive_id
            ((m.crc : Int) + crcOffset c.index_id) row.crc)) ∧
    (∀ (c : SqliteIndex) (dec : List Nat → Option (List Nat)) (m : Metadata) (d : List Nat),
      sqliteGetFile dec c m = .ok d →
      ∃ row, lookupRow c.cacheTable m.archive_id = some row ∧
        (m.crc : Int) + crcOffset c.index_id = row.crc) ∧
    (∀ c : SqliteIndex, assertCoherence c = .ok () →
      ∀ p ∈ c.metadatas, ∃ row, lookupRow c.cacheTable p.1 = some row ∧
        (p.2.crc : Int) + crcOffset c.index_id = row.crc) ∧
    (∀ a : Nat, crcOffset a = if a = 8 ∨ a = 47 then 2 else 1) := by
  refine ⟨?_, ?_, ?_, ?_⟩
  · intro c dec m row hrow h0 hcrc
    constructor
    · rw [sqliteGetFile_some dec c m row hrow, if_neg h0, if_pos hcrc]
    · rw [coherenceStep_some c m.archive_id m row hrow, if_neg h0, if_pos hcrc]
  · intro c dec m d h
    rcases hrow : lookupRow c.cacheTable m.archive_id with _ | row
    · rw [sqliteGetFile_none dec c m hrow] at h; cases h
    · rw [sqliteGetFile_some dec c m row hrow] at h
      refine ⟨row, rfl, ?_⟩
      by_cases h0 : row.crc = 0 ∧ row.version = 0
      · rw [if_pos h0] at h; cases h
      · rw [if_neg h0] at h
        by_cases hcrc : (m.crc : Int) + crcOffset c.index_id ≠ row.crc
        · rw [if_pos hcrc] at h; cases h
        · exact not_not.mp hcrc
  · intro c h p hp
    have hstep := coherenceLoop_ok c c.metadatas h p hp
    obtain ⟨row, hrow, hcrc, _⟩ := coherenceStep_ok c p.1 p.2 hstep
    exact ⟨row, hrow, hcrc⟩
  · intro a
    by_cases h : a = 8 ∨ a = 47
    · rcases h with h | h <;> rw [h] <;> simp [crcOffset]
    · push_neg at h
      rw [if_neg (by push_neg; exact h)]
      unfold crcOffset
      split
      · exact absurd rfl h.1
      · exact absurd rfl h.2
      · rfl

/-- The metadata record of the `c1_counterexample` scenario. -/
def c1Meta : Metadata :=
  { index_id := 4, archive_id := 2, name_hash := none, crc := 5, version := 1 }

/-- A jcache index whose row for archive 2 is reserved-but-empty
(stored CRC and VERSION both 0) while the metadata CRC is 5. -/
def c1Index : SqliteIndex :=
  { index_id := 4, metadatas := [(2, c1Meta)],
    cacheTable := [(2, { data := [], crc := 0, version := 0 })] }

/-- **C1** counterexample: the metadata CRC plus offset (6) differs from
the stored CRC (0), yet `get_file` fails with archive-missing, not with
the crc-mismatch error the claim requires. -/
theorem c1_counterexample :
    sqliteGetFile (fun d => some d) c1Index c1Meta = .error (.archiveMissing 4 2) ∧
      coherenceStep c1Index 2 c1Meta = .error (.archiveMissing 4 2) ∧
      (c1Meta.crc : Int) + crcOffset c1Index.index_id ≠ (0 : Int) := by
  refine ⟨by decide, by decide, by decide⟩

/-- The metadata record of the `c1_crc_offset_check_witness` scenario. -/
def c1WMeta : Metadata :=
  { index_id := 2, archive_id := 3, name_hash := none, crc := 10, version := 7 }

/-- A jcache index whose row for archive 3 has stored CRC 99, differing
from the metadata CRC 10 plus offset 1. -/
def c1WIndex : SqliteIndex :=
  { index_id := 2, metadatas := [(3, c1WMeta)],
    cacheTable := [(3, { data := [1], crc := 99, version := 7 })] }

/-- Witness for `c1_crc_offset_check` at a concrete mismatching row. -/
theorem c1_crc_offset_check_witness :
    sqliteGetFile (fun d => some d) c1WIndex c1WMeta = .error (.crcMismatch 2 3 11 99) ∧
      coherenceStep c1WIndex 3 c1WMeta = .error (.crcMismatch 2 3 11 99) := by
  have h := c1_crc_offset_check.1 c1WIndex (fun d => some d) c1WMeta
    { data := [1], crc := 99, version := 7 } (by decide) (by decide) (by decide)
  exact ⟨h.1.trans (by decide), h.2.trans (by decide)⟩

/-! ## Claim C10 -/

/-- **C10**: in the jcache back-end, an archive id present in `metadatas`
but with no row in the `cache` table makes `assert_coherence` panic (its
row lookup is `unwrap`ped) once the iteration reaches it, whereas
`get_file` on the same archive id returns an `ArchiveNotFound` error; and
the panic is unreachable whenever every metadata archive id has a row. -/
theorem c10_missing_row_panics :
    (∀ (c : SqliteIndex) (dec : List Nat → Option (List Nat))
        (pre : List (Nat × Metadata)) (id : Nat) (m : Metadata)
        (rest : List (Nat × Metadata)),
      c.metadatas = pre ++ (id, m) :: rest →
      m.archive_id = id →
      lookupRow c.cacheTable id = none →
      (∀ p ∈ pre, coherenceStep c p.1 p.2 = .ok ()) →
      sqliteGetFile dec c m = .error (.archiveMissing c.index_id id) ∧
        assertCoherence c = .panic) ∧
    (∀ c : SqliteIndex,
      (∀ p ∈ c.metadatas, (lookupRow c.cacheTable p.1).isSome) →
      assertCoherence c ≠ .panic) := by
  constructor
  · intro c dec pre id m rest hmeta hid hrow hpre
    refine ⟨?_, ?_⟩
    · rw [← hid] at hrow ⊢
      exact sqliteGetFile_none dec c m hrow
    · show coherenceLoop c c.metadatas = .panic
      rw [hmeta, coherenceLoop_skip c _ pre hpre, coherenceLoop_cons,
        coherenceStep_none c id m hrow]
  · intro c hall
    show coherenceLoop c c.metadatas ≠ .panic
    have key : ∀ l, (∀ p ∈ l, (lookupRow c.cacheTable p.1).isSome) →
        coherenceLoop c l ≠ .panic := by
      intro l
      induction l with
      | nil => intro _ h; cases h
      | cons q rest ih =>
        intro hl
        obtain ⟨id, m⟩ := q
        have hq := hl (id, m) (List.mem_cons_self _ _)
        rw [coherenceLoop_cons]
        rcases hstep : coherenceStep c id m with u | e | _ | _
        · exact ih fun p hp => hl p (List.mem_cons_of_mem _ hp)
        · simp
        · exact absurd hstep (coherenceStep_not_panic c id m hq)
        · rcases hrow : lookupRow c.cacheTable id with _ | row
          · rw [hrow] at hq; cases hq
          · rw [coherenceStep_some c id m row hrow] at hstep
            by_cases h0 : row.crc = 0 ∧ row.version = 0
            · rw [if_pos h0] at hstep; cases hstep
            · rw [if_neg h0] at hstep
              by_cases hcrc : (m.crc : Int) + crcOffset c.index_id ≠ row.crc
              · rw [if_pos hcrc] at hstep; cases hstep
              · rw [if_neg hcrc] at hstep
                by_cases hv : (m.version : Int) ≠ row.version
                · rw [if_pos hv] at hstep; cases hstep
                · rw [if_neg hv] at hstep; cases hstep
    exact key c.metadatas hall

/-- The metadata records of the `c10_missing_row_panics_witness` scenario:
archive 1 has a coherent row, archive 2 has no row at all. -/
def c10Meta1 : Metadata :=
  { index_id := 5, archive_id := 1, name_hash := none, crc := 20, version := 3 }

/-- See `c10Meta1`. -/
def c10Meta2 : Metadata :=
  { index_id := 5, archive_id := 2, name_hash := none, crc := 30, version := 4 }

/-- A jcache index whose metadatas list archives 1 and 2, with a row only
for archive 1 (coherent: stored CRC 21 = 20 + 1). -/
def c10Index : SqliteIndex :=
  { index_id := 5, metadatas := [(1, c10Meta1), (2, c10Meta2)],
    cacheTable := [(1, { data := [9], crc := 21, version := 3 })] }

/-- Witness for `c10_missing_row_panics` at a concrete index with a
missing row. -/
theorem c10_missing_row_panics_witness :
    sqliteGetFile (fun d => some d) c10Index c10Meta2 = .error (.archiveMissing 5 2) ∧
      assertCoherence c10Index = .panic := by
  have h := c10_missing_row_panics.1 c10Index (fun d => some d) [(1, c10Meta1)] 2 c10Meta2 []
    (by decide) (by decide) (by decide) (by decide)
  exact ⟨h.1.trans (by decide), h.2⟩

/-! ## Lemmas about the legacy entry lookup and sector loop -/

theorem getEntry_none (a b : Nat) (fs : LegacyFs) (h : lookupIdx fs a = none) :
    getEntry a b fs = .error (.cacheNotFound (.idx a)) := by
  unfold getEntry
  rw [h]

theorem readIndex_def (fuel : Nat) (c : DatIndex) (a b : Nat) :
    readIndex fuel c a b =
      match getEntry a b c.path with
      | .ok (length, sector) => readLoop c.file b length fuel 0 0 sector []
      | .error e => .error e
      | .panic => .panic
      | .diverge => .diverge := rfl

theorem readLoop_exit (dat : List Nat) (b length fuel readCount part : Nat)
    (data : List Nat) :
    readLoop dat b length fuel readCount part 0 data = .ok data := by
  cases fuel <;> rfl

/-! ## Claim C2 -/

/-- **C2** (amended): legacy archive retrieval reads the 6-byte entry at
offset `B*6` of `idx{A}` as `(length, first_sector)`; if the `idx{A}`
file is absent it fails with cache-not-found carrying the attempted path;
if the entry's `first_sector` is 0, retrieval *succeeds with empty
bytes* — no archive-missing error is raised (the sector loop simply never
runs). -/
theorem c2_entry_lookup :
    (∀ (fuel : Nat) (c : DatIndex) (a b : Nat),
      lookupIdx c.path a = none →
      readIndex fuel c a b = .error (.cacheNotFound (.idx a))) ∧
    (∀ (c : DatIndex) (a b : Nat) (d : List Nat),
      lookupIdx c.path a = some d →
      b * 6 + 6 ≤ d.length →
      getEntry a b c.path =
        .ok (beUint ((d.drop (b * 6)).take 3), beUint ((d.drop (b * 6 + 3)).take 3))) ∧
    (∀ (fuel : Nat) (c : DatIndex) (a b length : Nat),
      getEntry a b c.path = .ok (length, 0) →
      readIndex fuel c a b = .ok []) := by
  refine ⟨?_, ?_, ?_⟩
  · intro fuel c a b h
    rw [readIndex_def, getEntry_none a b c.path h]
  · intro c a b d h hlen
    simp only [getEntry, h, readExact]
    rw [if_pos (by omega), if_pos (by omega)]
  · intro fuel c a b length h
    rw [readIndex_def, h]
    exact readLoop_exit c.file b length fuel 0 0 []

/-- A legacy cache whose `idx0` holds a single entry with `length = 5`
and `first_sector = 0`. -/
def c2Fs : LegacyFs := { datFile := some [], idxFiles := [(0, [0, 0, 5, 0, 0, 0])] }

/-- The legacy index over `c2Fs`. -/
def c2Index : DatIndex := { path := c2Fs, index_id := 0, metadatas := [], file := [] }

/-- **C2** counterexample: with `first_sector = 0` the retrieval returns
`Ok` with empty bytes instead of the archive-missing error the claim
requires. -/
theorem c2_counterexample :
    getEntry 0 0 c2Fs = .ok (5, 0) ∧ readIndex 3 c2Index 0 0 = .ok [] := by
  exact ⟨by decide, by decide⟩

/-- Witness for `c2_entry_lookup` at a concrete cache: a missing `idx7`
file, an in-bounds entry read, and a zero first sector. -/
theorem c2_entry_lookup_witness :
    readIndex 3 c2Index 7 0 = .error (.cacheNotFound (.idx 7)) ∧
      getEntry 0 0 c2Fs = .ok (5, 0) ∧
      readIndex 3 c2Index 0 0 = .ok [] := by
  refine ⟨c2_entry_lookup.1 3 c2Index 7 0 (by decide), ?_, ?_⟩
  · have h := c2_entry_lookup.2.1 c2Index 0 0 [0, 0, 5, 0, 0, 0] (by decide) (by decide)
    exact h.trans (by decide)
  · exact c2_entry_lookup.2.2 3 c2Index 0 0 5 (by decide)

/-! ## Claim C3 -/

/-- **C3** (amended): when the sector chain terminates (`next_sector`
becomes 0), `read_index` returns `Ok` with the bytes accumulated so far,
unconditionally — it performs no comparison of the bytes read against the
`length` from the idx entry, so it can return successfully with fewer
than `length` bytes. -/
theorem c3_loop_exit (dat : List Nat) (b length fuel readCount part : Nat)
    (data : List Nat) :
    readLoop dat b length fuel readCount part 0 data = .ok data :=
  readLoop_exit dat b length fuel readCount part data

/-- A legacy cache whose `idx0` entry 0 declares `length = 513` but whose
single sector chain carries only 512 body bytes (its `next_sector` is 0).
The dat file is 1040 zero bytes: sector 1 then has archive echo 0, part
echo 0, next sector 0 and a 512-byte body of zeros. -/
def c3Fs : LegacyFs :=
  { datFile := some (List.replicate 1040 0), idxFiles := [(0, [0, 2, 1, 0, 0, 1])] }

/-- The legacy index over `c3Fs`. -/
def c3Index : DatIndex :=
  { path := c3Fs, index_id := 0, metadatas := [], file := List.replicate 1040 0 }

set_option maxRecDepth 100000 in
/-- **C3** counterexample: the idx entry declares `length = 513`, the
chain ends after 512 accumulated bytes, and `read_index` returns those
512 bytes with `Ok` instead of the corrupt error the claim requires. -/
theorem c3_counterexample :
    getEntry 0 0 c3Fs = .ok (513, 1) ∧
      readIndex 2 c3Index 0 0 = .ok (List.replicate 512 0) ∧
      (List.replicate 512 (0 : Nat)).length < 513 := by
  exact ⟨by decide, by decide, by decide⟩

/-! ## Claim C6 -/

/-- **C6** (amended): legacy `CacheIndex::new` only attempts to open
`cache/main_file_cache.dat` (cache-not-found when it is absent) and
returns an index whose `metadatas` is *empty*: the metadata blob is not
read from pseudo-index 255 at construction time, and `metadatas()` does
not reflect the on-disk index metadata after `new` returns. -/
theorem c6_new_empty_metadata :
    (∀ (index_id : Nat) (fs : LegacyFs) (c : DatIndex),
      datNew index_id fs = .ok c →
      c.metadatas = [] ∧ c.index_id = index_id ∧ c.path = fs ∧ fs.datFile = some c.file) ∧
    (∀ (index_id : Nat) (fs : LegacyFs),
      fs.datFile = none → datNew index_id fs = .error (.cacheNotFound .dat)) := by
  constructor
  · intro index_id fs c h
    unfold datNew at h
    rcases hdat : fs.datFile with _ | d <;> rw [hdat] at h
    · cases h
    · cases h
      exact ⟨rfl, rfl, rfl, rfl⟩
  · intro index_id fs h
    unfold datNew
    rw [h]

/-- A legacy cache directory holding only `main_file_cache.dat`
(no idx files at all, in particular no `idx255`). -/
def c6Fs : LegacyFs := { datFile := some [7], idxFiles := [] }

/-- **C6** counterexample: construction succeeds on a cache directory
with no `idx255` at all (so the metadata blob cannot have been read) and
the constructed index's `metadatas` is empty. -/
theorem c6_counterexample :
    datNew 4 c6Fs = .ok { path := c6Fs, index_id := 4, metadatas := [], file := [7] } ∧
      lookupIdx c6Fs 255 = none := by
  exact ⟨by decide, by decide⟩

/-- Witness for `c6_new_empty_metadata` at the concrete directory
`c6Fs`. -/
theorem c6_new_empty_metadata_witness :
    ({ path := c6Fs, index_id := 4, metadatas := [], file := [7] } : DatIndex).metadatas = [] ∧
      ({ path := c6Fs, index_id := 4, metadatas := [], file := [7] } : DatIndex).index_id = 4 ∧
      ({ path := c6Fs, index_id := 4, metadatas := [], file := [7] } : DatIndex).path = c6Fs ∧
      c6Fs.datFile = some ({ path := c6Fs, index_id := 4, metadatas := [], file := [7] } : DatIndex).file :=
  c6_new_empty_metadata.1 4 c6Fs
    { path := c6Fs, index_id := 4, metadatas := [], file := [7] } (by decide)

/-! ## Claim C7 -/

theorem archiveByNameLoop_eq (fuel : Nat) (dec : List Nat → Option (List Nat))
    (c : DatIndex) (h : Nat) (l : List (Nat × Metadata)) :
    archiveByNameLoop fuel dec c h l =
      match l.find? (fun p => decide (p.2.name_hash = some h)) with
      | some p => datGetFile fuel dec c p.2
      | none => .error (.archiveMissing 0 0) := by
  induction l with
  | nil => rfl
  | cons q rest ih =>
    obtain ⟨id, m⟩ := q
    show archiveByNameLoop fuel dec c h ((id, m) :: rest) = _
    unfold archiveByNameLoop
    by_cases hm : m.name_hash = some h
    · rw [if_pos hm, List.find?_cons_of_pos _ (by simp [hm])]
    · rw [if_neg hm, ih, List.find?_cons_of_neg _ (by simp [hm])]

/-- **C7** (amended): `archive_by_name(name)` computes the 32-bit name
hash of `name`, scans `metadatas` in order, and returns `get_file` of the
first archive whose `name_hash` equals that hash; when no archive
matches, it fails with an `ArchiveNotFound` error carrying the
*hard-coded* pair index 0, archive 0 — not the index's `index_id`. -/
theorem c7_archive_by_name (fuel : Nat) (dec : List Nat → Option (List Nat))
    (c : DatIndex) (name : List Nat) :
    archiveByName fuel dec c name =
      match c.metadatas.find? (fun p => decide (p.2.name_hash = some (hashArchive name))) with
      | some p => datGetFile fuel dec c p.2
      | none => .error (.archiveMissing 0 0) :=
  archiveByNameLoop_eq fuel dec c (hashArchive name) c.metadatas

/-- A legacy index with `index_id = 4` and a single unnamed archive. -/
def c7Index : DatIndex :=
  { path := c2Fs, index_id := 4,
    metadatas := [(9, { index_id := 4, archive_id := 9, name_hash := none,
                        crc := 0, version := 0 })],
    file := [] }

/-- **C7** counterexample: a failed lookup on an index whose `index_id`
is 4 yields `ArchiveNotFound` carrying `(0, 0)`, not the index's id. -/
theorem c7_counterexample :
    archiveByName 1 (fun d => some d) c7Index [104] = .error (.archiveMissing 0 0) ∧
      c7Index.index_id = 4 := by
  exact ⟨by decide, by decide⟩

/-! ## Claim C4 -/

/-- **C4**: during legacy retrieval of `(A, B)`, a sector whose header
reads succeed and whose echoes match is parsed with a 10-byte header
whose archive-id echo is a 32-bit (4-byte) integer and a body of
`min(510, length - read)` bytes when `B ≥ 0xFFFF`, and with an 8-byte
header whose archive-id echo is a 16-bit (2-byte) integer and a body of
`min(512, length - read)` bytes when `B < 0xFFFF`.  The part echo is a
16-bit integer at header offset 4 (resp. 2) and the next sector a 24-bit
integer at offset 6 (resp. 4) in both layouts. -/
theorem c4_header_select (dat : List Nat) (b length readCount part sector : Nat) :
    (b ≥ 0xFFFF →
      sector * 520 + 10 + min 510 (length - readCount) ≤ dat.length →
      beUint ((dat.drop (sector * 520)).take 4) = b →
      beUint ((dat.drop (sector * 520 + 4)).take 2) = part →
      readSector dat b length readCount part sector =
        .ok ((dat.drop (sector * 520 + 10)).take (min 510 (length - readCount)),
          beUint ((dat.drop (sector * 520 + 6)).take 3))) ∧
    (b < 0xFFFF →
      sector * 520 + 8 + min 512 (length - readCount) ≤ dat.length →
      beUint ((dat.drop (sector * 520)).take 2) = b →
      beUint ((dat.drop (sector * 520 + 2)).take 2) = part →
      readSector dat b length readCount part sector =
        .ok ((dat.drop (sector * 520 + 8)).take (min 512 (length - readCount)),
          beUint ((dat.drop (sector * 520 + 4)).take 3))) := by
  constructor
  · intro hb hlen hecho hpart
    have h1 : sector * 520 + 4 ≤ dat.length := by omega
    have h2 : sector * 520 + 4 + 2 ≤ dat.length := by omega
    have h3 : sector * 520 + 6 + 3 ≤ dat.length := by omega
    have h4 : sector * 520 + 9 + 1 ≤ dat.length := by omega
    have h5 : sector * 520 + 10 + min 510 (length - readCount) ≤ dat.length := hlen
    simp only [readSector, readExact, hb, h1, h2, h3, h4, h5, if_true, hecho, hpart,
      ne_eq, not_true_eq_false, if_false, ite_true, ite_false]
  · intro hb hlen hecho hpart
    have hb' : ¬ b ≥ 0xFFFF := by omega
    have h1 : sector * 520 + 2 ≤ dat.length := by omega
    have h2 : sector * 520 + 2 + 2 ≤ dat.length := by omega
    have h3 : sector * 520 + 4 + 3 ≤ dat.length := by omega
    have h4 : sector * 520 + 7 + 1 ≤ dat.length := by omega
    have h5 : sector * 520 + 8 + min 512 (length - readCount) ≤ dat.length := hlen
    simp only [readSector, readExact, hb', h1, h2, h3, h4, h5, if_true, hecho, hpart,
      ne_eq, not_true_eq_false, if_false, ite_true, ite_false]

/-- Witness for `c4_header_select`: a large-id sector at sector 0 with
archive id `0xFFFF`, and a small-id sector with archive id 9. -/
theorem c4_header_select_witness :
    readSector [0, 0, 255, 255, 0, 0, 0, 0, 0, 0, 1, 2, 3] 65535 3 0 0 0 =
        .ok ([1, 2, 3], 0) ∧
      readSector [0, 9, 0, 0, 0, 0, 0, 0, 5, 6] 9 2 0 0 0 = .ok ([5, 6], 0) := by
  constructor
  · have h := (c4_header_select [0, 0, 255, 255, 0, 0, 0, 0, 0, 0, 1, 2, 3] 65535 3 0 0 0).1
      (by decide) (by decide) (by decide) (by decide)
    exact h.trans (by decide)
  · have h := (c4_header_select [0, 9, 0, 0, 0, 0, 0, 0, 5, 6] 9 2 0 0 0).2
      (by decide) (by decide) (by decide) (by decide)
    exact h.trans (by decide)

/-! ## Claim C5 -/

theorem drop_append_ge (A B : List Nat) (pos : Nat) (h : A.length ≤ pos) :
    (A ++ B).drop pos = B.drop (pos - A.length) := by
  rw [show pos = A.length + (pos - A.length) by omega, List.drop_append]
  congr 1
  omega

theorem readExact_before (pre post : List Nat) (x pos n : Nat) (h : pos + n ≤ pre.length) :
    readExact (pre ++ x :: post) pos n = some ((pre.drop pos).take n) := by
  unfold readExact
  rw [if_pos (show pos + n ≤ (pre ++ x :: post).length by
    simp only [List.length_append, List.length_cons]; omega)]
  rw [List.drop_append_of_le_length (by omega),
    List.take_append_of_le_length (by simp only [List.length_drop]; omega)]

theorem readExact_at (pre post : List Nat) (x pos : Nat) (h : pos = pre.length) :
    readExact (pre ++ x :: post) pos 1 = some [x] := by
  subst h
  unfold readExact
  rw [if_pos (show pre.length + 1 ≤ (pre ++ x :: post).length by
    simp only [List.length_append, List.length_cons]; omega)]
  rw [List.drop_left]
  rfl

theorem readExact_after (pre post : List Nat) (x y pos n : Nat) (h : pre.length + 1 ≤ pos) :
    readExact (pre ++ x :: post) pos n = readExact (pre ++ y :: post) pos n := by
  have hlen : (pre ++ x :: post).length = (pre ++ y :: post).length := by
    simp only [List.length_append, List.length_cons]
  have hdrop : (pre ++ x :: post).drop pos = (pre ++ y :: post).drop pos := by
    rw [List.append_cons pre x post,
      drop_append_ge (pre ++ [x]) post pos
        (by simp only [List.length_append, List.length_cons, List.length_nil]; omega),
      List.append_cons pre y post,
      drop_append_ge (pre ++ [y]) post pos
        (by simp only [List.length_append, List.length_cons, List.length_nil]; omega)]
    simp only [List.length_append, List.length_cons, List.length_nil]
  unfold readExact
  rw [hlen, hdrop]

/-- **C5** (amended): for every sector visited during legacy retrieval,
the reader checks that the sector's `archive_id_echo` equals `B` and that
its `part_echo` equals the running part counter; a mismatch causes a
*panic* (`assert_eq!`), not a returned corrupt error.  The `index_echo`
byte is read but never validated: the parse result is independent of its
value. -/
theorem c5_echo_mismatch_panics (dat pre post : List Nat)
    (c c' b length readCount part sector : Nat) :
    (b ≥ 0xFFFF → sector * 520 + 10 ≤ dat.length →
      (beUint ((dat.drop (sector * 520)).take 4) ≠ b ∨
        beUint ((dat.drop (sector * 520 + 4)).take 2) ≠ part) →
      readSector dat b length readCount part sector = .panic) ∧
    (b < 0xFFFF → sector * 520 + 8 ≤ dat.length →
      (beUint ((dat.drop (sector * 520)).take 2) ≠ b ∨
        beUint ((dat.drop (sector * 520 + 2)).take 2) ≠ part) →
      readSector dat b length readCount part sector = .panic) ∧
    (b ≥ 0xFFFF → pre.length = sector * 520 + 9 →
      readSector (pre ++ c :: post) b length readCount part sector =
        readSector (pre ++ c' :: post) b length readCount part sector) ∧
    (b < 0xFFFF → pre.length = sector * 520 + 7 →
      readSector (pre ++ c :: post) b length readCount part sector =
        readSector (pre ++ c' :: post) b length readCount part sector) := by
  refine ⟨?_, ?_, ?_, ?_⟩
  · intro hb hlen hmis
    have h1 : sector * 520 + 4 ≤ dat.length := by omega
    have h2 : sector * 520 + 4 + 2 ≤ dat.length := by omega
    have h3 : sector * 520 + 6 + 3 ≤ dat.length := by omega
    have h4 : sector * 520 + 9 + 1 ≤ dat.length := by omega
    simp only [readSector, readExact, hb, h1, h2, h3, h4, if_true, ite_true]
    rcases hmis with hm | hm
    · rw [if_pos (Ne.symm hm)]
    · by_cases he : b = beUint ((dat.drop (sector * 520)).take 4)
      · rw [if_neg (not_not_intro he), if_pos (Ne.symm hm)]
      · rw [if_pos he]
  · intro hb hlen hmis
    have hb' : ¬ b ≥ 0xFFFF := by omega
    have h1 : sector * 520 + 2 ≤ dat.length := by omega
    have h2 : sector * 520 + 2 + 2 ≤ dat.length := by omega
    have h3 : sector * 520 + 4 + 3 ≤ dat.length := by omega
    have h4 : sector * 520 + 7 + 1 ≤ dat.length := by omega
    simp only [readSector, readExact, hb', h1, h2, h3, h4, if_true, ite_true, if_false,
      ite_false]
    rcases hmis with hm | hm
    · rw [if_pos (Ne.symm hm)]
    · by_cases he : b = beUint ((dat.drop (sector * 520)).take 2)
      · rw [if_neg (not_not_intro he), if_pos (Ne.symm hm)]
      · rw [if_pos he]
  · intro hb hpre
    have e1 := readExact_before pre post c (sector * 520) 4 (by omega)
    have e1' := readExact_before pre post c' (sector * 520) 4 (by omega)
    have e2 := readExact_before pre post c (sector * 520 + 4) 2 (by omega)
    have e2' := readExact_before pre post c' (sector * 520 + 4) 2 (by omega)
    have e3 := readExact_before pre post c (sector * 520 + 6) 3 (by omega)
    have e3' := readExact_before pre post c' (sector * 520 + 6) 3 (by omega)
    have e4 := readExact_at pre post c (sector * 520 + 9) (by omega)
    have e4' := readExact_at pre post c' (sector * 520 + 9) (by omega)
    have e5 := readExact_after pre post c c' (sector * 520 + 10)
      (min 510 (length - readCount)) (by omega)
    simp only [readSector, hb, if_true, ite_true, e1, e1', e2, e2', e3, e3', e4, e4', e5]
  · intro hb hpre
    have hb' : ¬ b ≥ 0xFFFF := by omega
    have e1 := readExact_before pre post c (sector * 520) 2 (by omega)
    have e1' := readExact_before pre post c' (sector * 520) 2 (by omega)
    have e2 := readExact_before pre post c (sector * 520 + 2) 2 (by omega)
    have e2' := readExact_before pre post c' (sector * 520 + 2) 2 (by omega)
    have e3 := readExact_before pre post c (sector * 520 + 4) 3 (by omega)
    have e3' := readExact_before pre post c' (sector * 520 + 4) 3 (by omega)
    have e4 := readExact_at pre post c (sector * 520 + 7) (by omega)
    have e4' := readExact_at pre post c' (sector * 520 + 7) (by omega)
    have e5 := readExact_after pre post c c' (sector * 520 + 8)
      (min 512 (length - readCount)) (by omega)
    simp only [readSector, hb', if_true, ite_true, if_false, ite_false, e1, e1', e2, e2',
      e3, e3', e4, e4', e5]

/-- The dat file of the `c5_counterexample` scenario: sector 1 echoes
archive id 9 although archive 0 is being read. -/
def c5Dat : List Nat :=
  List.replicate 520 0 ++ [0, 9, 0, 0, 0, 0, 0, 0] ++ List.replicate 512 3

/-- The legacy cache over `c5Dat`, whose `idx7` entry 0 points at
sector 1 with length 10. -/
def c5Index : DatIndex :=
  { path := { datFile := some c5Dat, idxFiles := [(7, [0, 0, 10, 0, 0, 1])] },
    index_id := 7, metadatas := [], file := c5Dat }

set_option maxRecDepth 100000 in
/-- **C5** counterexample: the sector's archive-id echo (9) differs from
the requested archive id (0), and `read_index` panics — the outcome is a
Rust panic (`assert_eq!`), not the returned corrupt error the claim
requires. -/
theorem c5_counterexample : readIndex 5 c5Index 7 0 = .panic := by
  decide

/-- Witness for `c5_echo_mismatch_panics`: a concrete sector whose
part echo mismatches, and concrete index-echo bytes 0 and 200 that leave
the parse result unchanged. -/
theorem c5_echo_mismatch_panics_witness :
    readSector [0, 9, 0, 4, 0, 0, 0, 0, 5, 6] 9 2 0 0 0 = .panic ∧
      readSector ([0, 9, 0, 0, 0, 0, 0] ++ 0 :: [5, 6]) 9 2 0 0 0 =
        readSector ([0, 9, 0, 0, 0, 0, 0] ++ 200 :: [5, 6]) 9 2 0 0 0 := by
  constructor
  · exact (c5_echo_mismatch_panics [0, 9, 0, 4, 0, 0, 0, 0, 5, 6] [] [] 0 0 9 2 0 0 0).2.1
      (by decide) (by decide) (Or.inr (by decide))
  · exact (c5_echo_mismatch_panics [] [0, 9, 0, 0, 0, 0, 0] [5, 6] 0 200 9 2 0 0 0).2.2.2
      (by decide) (by decide)

/-! ## Claim C8 -/

/-- **C8**: whenever legacy `get_index()` returns normally, the returned
state of `self` equals the state before the call — the `index_id` that
was transiently set to 0 (to read the map catalog from archive 5 of
index 0) is restored and no other field (`path`, `metadatas`, `file`) is
modified; moreover the archive that was read is archive 5 of the
index-0 reinterpretation of `self`. -/
theorem c8_get_index_frame (arch : DatIndex → Nat → Option SpecArchive) (c c' : DatIndex)
    (m : List ((Nat × Nat) × MapsquareMeta)) (h : getIndex arch c = .ok (c', m)) :
    c' = c ∧ c'.index_id = c.index_id ∧ c'.path = c.path ∧
      c'.metadatas = c.metadatas ∧ c'.file = c.file ∧
      ∃ a, arch { c with index_id := 0 } 5 = some a ∧
        ∃ index, a.fileNamed "map_index" = some index ∧ decodeMapIndex index = .ok m := by
  unfold getIndex at h
  split at h
  · split at h
    · cases h
    · rename_i a ha
      split at h
      · cases h
      · rename_i index hindex
        split at h
        · cases h
        · split at h
          · cases h
          · split at h
            · rename_i mm hmm
              cases h
              exact ⟨rfl, rfl, rfl, rfl, rfl, a, ha, index, hindex, hmm⟩
            · cases h
            · cases h
            · cases h
  · cases h

/-- The archive-retrieval stub of the `c8_get_index_frame_witness`
scenario: archive 5 carries a one-record `map_index` sub-file. -/
def c8Arch : DatIndex → Nat → Option SpecArchive := fun _ _ =>
  some { fileNamed := fun s => if s = "map_index" then some [0, 50, 0, 1, 0, 2, 1] else some [] }

/-- A legacy index with `index_id = 4` for the `get_index` witness. -/
def c8Index : DatIndex := { path := c2Fs, index_id := 4, metadatas := [], file := [] }

/-! ## Claim C9: characterization of the map-index records -/

/-- The `MapsquareMeta` decoded from the 7 bytes at offset `pos` of a
`map_index` file: big-endian `u16 mapsquare, u16 mapfile, u16 locfile`
and one `f2p` byte compared against 0. -/
def mapRecord (l : List Nat) (pos : Nat) : MapsquareMeta :=
  { mapsquare := beUint ((l.drop pos).take 2),
    mapfile := beUint ((l.drop (pos + 2)).take 2),
    locfile := beUint ((l.drop (pos + 4)).take 2),
    f2p := beUint ((l.drop (pos + 6)).take 1) ≠ 0 }

/-- The map key derived from a `mapsquare` value:
`(mapsquare >> 8, mapsquare & 0xFF)`. -/
def mapKey (ms : Nat) : Nat × Nat := (ms / 256, ms % 256)

/-- The `len / 7` keyed records of a `map_index` file, the `k`-th decoded
from the bytes at offsets `7k ..< 7k+7`. -/
def mapRecords (l : List Nat) : List ((Nat × Nat) × MapsquareMeta) :=
  (List.range (l.length / 7)).map fun k =>
    (mapKey (mapRecord l (7 * k)).mapsquare, mapRecord l (7 * k))

theorem beUint_lt (l : List Nat) (hb : ∀ x ∈ l, x < 256) : beUint l < 256 ^ l.length := by
  induction l with
  | nil => simp [beUint]
  | cons a r ih =>
    simp only [beUint, List.length_cons]
    have ha : a < 256 := hb a (List.mem_cons_self a r)
    have hr := ih fun x hx => hb x (List.mem_cons_of_mem a hx)
    calc a * 256 ^ r.length + beUint r < a * 256 ^ r.length + 256 ^ r.length := by omega
      _ = (a + 1) * 256 ^ r.length := by ring
      _ ≤ 256 * 256 ^ r.length := Nat.mul_le_mul_right _ (by omega)
      _ = 256 ^ (r.length + 1) := by ring

theorem beUint_take2_lt (l : List Nat) (pos : Nat) (hb : ∀ x ∈ l, x < 256) :
    beUint ((l.drop pos).take 2) < 65536 := by
  have hsub : ∀ x ∈ (l.drop pos).take 2, x < 256 := fun x hx =>
    hb x (List.drop_subset pos l (List.take_subset 2 (l.drop pos) hx))
  have h := beUint_lt _ hsub
  have hlen : ((l.drop pos).take 2).length ≤ 2 := by
    rw [List.length_take]
    omega
  calc beUint ((l.drop pos).take 2) < 256 ^ ((l.drop pos).take 2).length := h
    _ ≤ 256 ^ 2 := Nat.pow_le_pow_right (by omega) hlen
    _ = 65536 := by norm_num

theorem btFind_insert_self (k : Nat × Nat) (v : MapsquareMeta)
    (m : List ((Nat × Nat) × MapsquareMeta)) : btFind (btInsert k v m) k = some v := by
  induction m with
  | nil =>
    simp [btInsert, btFind, List.find?]
  | cons q t ih =>
    obtain ⟨k', v'⟩ := q
    unfold btInsert
    by_cases hlt : keyLt k k'
    · rw [if_pos hlt]
      simp [btFind, List.find?]
    · rw [if_neg hlt]
      by_cases heq : k = k'
      · rw [if_pos heq]
        simp [btFind, List.find?]
      · rw [if_neg heq]
        unfold btFind
        rw [List.find?_cons_of_neg _ (by simp [Ne.symm heq])]
        exact ih

theorem btFind_insert_ne (k : Nat × Nat) (v : MapsquareMeta)
    (m : List ((Nat × Nat) × MapsquareMeta)) (k' : Nat × Nat) (h : k' ≠ k) :
    btFind (btInsert k v m) k' = btFind m k' := by
  induction m with
  | nil =>
    unfold btInsert btFind
    rw [List.find?_cons_of_neg _ (by simp [Ne.symm h])]
  | cons q t ih =>
    obtain ⟨a, b⟩ := q
    unfold btInsert
    by_cases hlt : keyLt k a
    · rw [if_pos hlt]
      unfold btFind
      rw [List.find?_cons_of_neg _ (by simp [Ne.symm h])]
    · rw [if_neg hlt]
      by_cases heq : k = a
      · subst heq
        rw [if_pos rfl]
        unfold btFind
        rw [List.find?_cons_of_neg _ (by simp [Ne.symm h]),
          List.find?_cons_of_neg _ (by simp [Ne.symm h])]
      · rw [if_neg heq]
        by_cases hak : a = k'
        · subst hak
          unfold btFind
          rw [List.find?_cons_of_pos _ (by simp), List.find?_cons_of_pos _ (by simp)]
        · unfold btFind
          rw [List.find?_cons_of_neg _ (by simp [hak]),
            List.find?_cons_of_neg _ (by simp [hak])]
          exact ih

theorem btFind_foldl_insert (rs : List ((Nat × Nat) × MapsquareMeta)) :
    ∀ (m0 : List ((Nat × Nat) × MapsquareMeta)) (key : Nat × Nat),
      btFind (rs.foldl (fun a r => btInsert r.1 r.2 a) m0) key =
        match rs.reverse.find? (fun r => decide (r.1 = key)) with
        | some r => some r.2
        | none => btFind m0 key := by
  induction rs with
  | nil => intro m0 key; rfl
  | cons r rest ih =>
    intro m0 key
    rw [List.foldl_cons, ih, List.reverse_cons, List.find?_append]
    rcases hfr : rest.reverse.find? (fun x => decide (x.1 = key)) with _ | x <;> rw [hfr]
    · by_cases hr : r.1 = key
      · rw [List.find?_cons_of_pos _ (by simp [hr])]
        show btFind (btInsert r.1 r.2 m0) key = some r.2
        rw [← hr]
        exact btFind_insert_self r.1 r.2 m0
      · rw [List.find?_cons_of_neg _ (by simp [hr])]
        show btFind (btInsert r.1 r.2 m0) key = btFind m0 key
        exact btFind_insert_ne r.1 r.2 m0 key fun hk => hr hk.symm
    · rfl

theorem decodeMapLoop_eq (l : List Nat) (hbytes : ∀ x ∈ l, x < 256) :
    ∀ (k : Nat), ∀ (pos : Nat) (acc : List ((Nat × Nat) × MapsquareMeta)),
      pos + 7 * k ≤ l.length →
      decodeMapLoop l k pos acc =
        .ok (((List.range k).map fun i =>
            (mapKey (mapRecord l (pos + 7 * i)).mapsquare, mapRecord l (pos + 7 * i))).foldl
          (fun a r => btInsert r.1 r.2 a) acc) := by
  intro k
  induction k with
  | zero =>
    intro pos acc h
    rfl
  | succ n ih =>
    intro pos acc h
    have r1 : readExact l pos 2 = some ((l.drop pos).take 2) := by
      unfold readExact; rw [if_pos (by omega)]
    have r2 : readExact l (pos + 2) 2 = some ((l.drop (pos + 2)).take 2) := by
      unfold readExact; rw [if_pos (by omega)]
    have r3 : readExact l (pos + 4) 2 = some ((l.drop (pos + 4)).take 2) := by
      unfold readExact; rw [if_pos (by omega)]
    have r4 : readExact l (pos + 6) 1 = some ((l.drop (pos + 6)).take 1) := by
      unfold readExact; rw [if_pos (by omega)]
    have hms := beUint_take2_lt l pos hbytes
    have hguard : ¬ beUint ((l.drop pos).take 2) / 256 ≥ 256 := by omega
    simp only [decodeMapLoop, r1, r2, r3, r4, hguard, if_false, ite_false]
    rw [ih (pos + 7) _ (by omega)]
    congr 1
    rw [List.range_succ_eq_map, List.map_cons, List.map_map, List.foldl_cons]
    have harith : ∀ i : Nat, pos + 7 * Nat.succ i = pos + 7 + 7 * i := fun i => by omega
    have hmap : ((List.range n).map
          ((fun i => (mapKey (mapRecord l (pos + 7 * i)).mapsquare,
            mapRecord l (pos + 7 * i))) ∘ Nat.succ)) =
        (List.range n).map fun i =>
          (mapKey (mapRecord l (pos + 7 + 7 * i)).mapsquare,
            mapRecord l (pos + 7 + 7 * i)) := by
      refine List.map_congr_left fun i _ => ?_
      simp only [Function.comp_apply, harith]
    rw [hmap]
    rfl

/-- **C9**: for a `map_index` sub-file of length `len` (of byte values),
`get_index`'s decode loop decodes exactly `len / 7` consecutive 7-byte
records — big-endian `u16 mapsquare, u16 mapfile, u16 locfile, u8 f2p` —
without panicking, and builds the map by inserting each record in order
under the key `(mapsquare >> 8, mapsquare & 0xFF)`; a lookup in the
resulting map returns the *last* record with that key (later records
overwrite earlier ones), and `none` when no record has the key. -/
theorem c9_map_index_records (l : List Nat) (hbytes : ∀ x ∈ l, x < 256) :
    decodeMapIndex l =
        .ok ((mapRecords l).foldl (fun a r => btInsert r.1 r.2 a) []) ∧
      (mapRecords l).length = l.length / 7 ∧
      ∀ key : Nat × Nat,
        btFind ((mapRecords l).foldl (fun a r => btInsert r.1 r.2 a) []) key =
          match (mapRecords l).reverse.find? (fun r => decide (r.1 = key)) with
          | some r => some r.2
          | none => none := by
  refine ⟨?_, ?_, ?_⟩
  · unfold decodeMapIndex mapRecords
    rw [decodeMapLoop_eq l hbytes (l.length / 7) 0 [] (by omega)]
    simp only [Nat.zero_add]
  · simp [mapRecords]
  · intro key
    rw [btFind_foldl_insert (mapRecords l) [] key]
    rcases hf : (mapRecords l).reverse.find? (fun r => decide (r.1 = key)) with _ | x
    · rw [hf]
      rfl
    · rw [hf]

/-- Witness for `c9_map_index_records`: a 14-byte `map_index` file with
two records sharing the key `(0, 50)`; the decoded map holds the later
record. -/
theorem c9_map_index_records_witness :
    decodeMapIndex [0, 50, 0, 1, 0, 2, 1, 0, 50, 0, 3, 0, 4, 0] =
        .ok [((0, 50), { mapsquare := 50, mapfile := 3, locfile := 4, f2p := false })] ∧
      btFind ((mapRecords [0, 50, 0, 1, 0, 2, 1, 0, 50, 0, 3, 0, 4, 0]).foldl
          (fun a r => btInsert r.1 r.2 a) []) (0, 50) =
        some { mapsquare := 50, mapfile := 3, locfile := 4, f2p := false } := by
  have h := c9_map_index_records [0, 50, 0, 1, 0, 2, 1, 0, 50, 0, 3, 0, 4, 0] (by decide)
  exact ⟨h.1.trans (by decide), (h.2.2 (0, 50)).trans (by decide)⟩

/-- Witness for `c8_get_index_frame` at a concrete successful
`get_index` run. -/
theorem c8_get_index_frame_witness :
    c8Index = c8Index ∧ c8Index.index_id = c8Index.index_id ∧
      c8Index.path = c8Index.path ∧ c8Index.metadatas = c8Index.metadatas ∧
      c8Index.file = c8Index.file ∧
      ∃ a, c8Arch { c8Index with index_id := 0 } 5 = some a ∧
        ∃ index, a.fileNamed "map_index" = some index ∧
          decodeMapIndex index =
            .ok [((0, 50), { mapsquare := 50, mapfile := 1, locfile := 2, f2p := true })] :=
  c8_get_index_frame c8Arch c8Index c8Index
    [((0, 50), { mapsquare := 50, mapfile := 1, locfile := 2, f2p := true })] rfl

end RS3
